import Mathlib

/-!
Verification of the clawlite agent core (TypeScript sources under `src/`):
the turn orchestrator (`src/agent.ts`), the context guard (`src/context.ts`),
the execution lane (`src/lane.ts`), the tool registry and skill loader
(`src/tools/registry.ts`, `src/tools/skills.ts`).

The TypeScript code is shallowly embedded as executable Lean definitions:

* messages, tool calls and tool definitions become structures mirroring the
  interfaces of `src/llm/types.ts`;
* a provider is a record whose `chat` field is a function returning
  `Except String Message` (a thrown provider error becomes `Except.error`);
* `JSON.parse` is a host primitive, so it is a parameter of the model: an
  oracle `String → Option α` for an abstract argument type `α`;
* the async turn loop of `Agent.handleMessage` becomes a fuel-indexed
  recursion (fuel = `MAX_TURNS - turns`), threading the conversation and the
  session log explicitly; the loop additionally records, purely for
  specification purposes, a trace with one snapshot per loop iteration taken
  at the first provider call of that iteration (the snapshot has no influence
  on any computed result);
* the session store's on-disk `.jsonl` file is modelled by the list of
  messages appended to it, in order (timestamps and file I/O are external);
* `console.log` / `onOutput` notices are pure output and are omitted.
-/

set_option allowUnsafeReducibility true in
attribute [semireducible] Rat.mul

set_option maxRecDepth 100000

namespace Clawlite

/-- Message roles, from the `Message` interface of `src/llm/types.ts`. -/
inductive Role where
  | system
  | user
  | assistant
  | tool
deriving DecidableEq, Repr

/-- The `function` field of a tool call (`ToolCall.function` in
`src/llm/types.ts`): a tool name and a serialized argument payload. -/
structure ToolCallFunction where
  name : String
  arguments : String
deriving DecidableEq, Repr

/-- A tool invocation request (`ToolCall` in `src/llm/types.ts`). -/
structure ToolCall where
  id : String
  function : ToolCallFunction
deriving DecidableEq, Repr

/-- A chat message (`Message` in `src/llm/types.ts`).  The two optional
fields are `Option`s, mirroring the optional TypeScript properties. -/
structure Message where
  role : Role
  content : String
  tool_calls : Option (List ToolCall) := none
  tool_call_id : Option String := none
deriving DecidableEq, Repr

/-- One property of a tool parameter schema (`src/llm/types.ts`). -/
structure ToolParamProp where
  type : String
  description : String
deriving DecidableEq, Repr

/-- The parameter schema of a tool definition (`src/llm/types.ts`);
`properties` is the record in declaration order. -/
structure ToolParams where
  type : String := "object"
  properties : List (String × ToolParamProp) := []
  required : List String := []
deriving DecidableEq, Repr

/-- The `function` field of a tool definition (`src/llm/types.ts`). -/
structure ToolDefFunction where
  name : String
  description : String
  parameters : ToolParams
deriving DecidableEq, Repr

/-- A tool definition sent to the provider (`ToolDef` in `src/llm/types.ts`). -/
structure ToolDef where
  type : String := "function"
  function : ToolDefFunction
deriving DecidableEq, Repr

/-- A model provider (`LLMProvider` in `src/llm/types.ts`).  `chat` may fail
(a thrown transport/parse error is `Except.error` carrying the error's string
rendering); `estimateTokens` returns a token-count estimate. -/
structure LLMProvider where
  name : String
  chat : List Message → List ToolDef → Except String Message
  estimateTokens : String → Nat

/-- Result of a tool execution (`ToolResult` in `src/tools/types.ts`). -/
structure ToolResult where
  output : String
  success : Bool
deriving DecidableEq, Repr

/-- A registered tool (`Tool` in `src/tools/types.ts`).  `α` is the type of
parsed JSON argument objects (`Record<string, unknown>`), kept abstract since
JSON parsing is a host primitive, not code of this repository. -/
structure Tool (α : Type) where
  name : String
  definition : ToolDef
  execute : α → ToolResult

/-- The tool registry (`ToolRegistry` in `src/tools/registry.ts`).  A JS
`Map` iterates in insertion order, so it is modelled as the list of
registered tools in insertion order with name-keyed lookup. -/
structure ToolRegistry (α : Type) where
  tools : List (Tool α)

/-- `ToolRegistry.register`: `Map.set` keyed by name — re-registering a name
replaces the prior binding in place, otherwise the tool is appended. -/
def ToolRegistry.register {α : Type} (r : ToolRegistry α) (t : Tool α) :
    ToolRegistry α :=
  if r.tools.any (fun u => u.name == t.name) then
    ⟨r.tools.map (fun u => if u.name == t.name then t else u)⟩
  else
    ⟨r.tools ++ [t]⟩

/-- `ToolRegistry.get`: name lookup, absent name gives `none`. -/
def ToolRegistry.get {α : Type} (r : ToolRegistry α) (name : String) :
    Option (Tool α) :=
  r.tools.find? (fun t => t.name == name)

/-- `ToolRegistry.getDefinitions()` with no name filter: all definitions in
registration order. -/
def ToolRegistry.getDefinitions {α : Type} (r : ToolRegistry α) :
    List ToolDef :=
  r.tools.map (fun t => t.definition)

/-- `ToolRegistry.getDefinitions(names)`: map each name through the registry,
silently dropping unknown names. -/
def ToolRegistry.getDefinitionsFor {α : Type} (r : ToolRegistry α)
    (names : List String) : List ToolDef :=
  (names.filterMap (fun n => r.get n)).map (fun t => t.definition)

/-- The `truncate` helper of `src/context.ts`: the first `max` characters,
with an ellipsis marker appended when the text is longer than `max`.
(JS `slice` counts UTF-16 code units; the embedding counts characters.) -/
def truncate (text : String) (max : Nat) : String :=
  if text.length ≤ max then text else text.take max ++ "..."

/-- The context guard (`ContextGuard` in `src/context.ts`).  `maxTokens` and
`threshold` are JS numbers used only in `maxTokens * threshold` comparisons;
they are embedded as rationals. -/
structure ContextGuard where
  maxTokens : ℚ
  threshold : ℚ

/-- `ContextGuard.estimateTotal`: token estimate of every message's content
plus every serialized tool-call argument payload.  (The source's
`msg.content || ""` only replaces an absent content by `""`; `content` is
always present in the embedding.)  The method reads no instance fields, so it
is defined without the guard. -/
def ContextGuard.estimateTotal (messages : List Message)
    (provider : LLMProvider) : Nat :=
  messages.foldl
    (fun total msg =>
      let t := total + provider.estimateTokens msg.content
      match msg.tool_calls with
      | some tcs =>
          t + (tcs.map (fun tc => provider.estimateTokens tc.function.arguments)).sum
      | none => t)
    0

/-- `ContextGuard.needsCompaction`: true when the estimated total exceeds
`maxTokens * threshold`. -/
def ContextGuard.needsCompaction (g : ContextGuard) (messages : List Message)
    (provider : LLMProvider) : Bool :=
  decide ((ContextGuard.estimateTotal messages provider : ℚ) >
    g.maxTokens * g.threshold)

/-- The digest line pushed onto `summaryParts` for one summarized message in
`ContextGuard.compact`.  A JS empty `tool_calls` array is truthy, so an
assistant message with `tool_calls` present (even empty) takes the
"used tools" branch; a message whose role matches no branch (a system
message) pushes nothing. -/
def summaryLine (msg : Message) : Option String :=
  match msg.role with
  | Role.user => some ("User asked: " ++ truncate msg.content 100)
  | Role.assistant =>
      match msg.tool_calls with
      | some tcs =>
          some ("Assistant used tools: " ++
            String.intercalate ", " (tcs.map (fun tc => tc.function.name)))
      | none => some ("Assistant: " ++ truncate msg.content 100)
  | Role.tool => some ("Tool result: " ++ truncate msg.content 60)
  | Role.system => none

/-- `ContextGuard.compact`: identity on conversations of at most 4 messages
or with nothing to summarize; otherwise keeps the leading system message (if
any) and the last 4 non-system messages, replacing the rest with one
synthesized user-role summary message.  JS `slice(0, -4)` / `slice(-4)`
become `take (n-4)` / `drop (n-4)`.  The provider argument is used in the
source only for the "Context compacted" log line, which is pure output. -/
def ContextGuard.compact (_g : ContextGuard) (messages : List Message)
    (_provider : LLMProvider) : List Message :=
  if messages.length ≤ 4 then messages else
  let system : Option Message :=
    match messages.head? with
    | some m => if m.role = Role.system then some m else none
    | none => none
  let nonSystem : List Message :=
    match system with
    | some _ => messages.drop 1
    | none => messages
  let keep : Nat := 4
  let toSummarise := nonSystem.take (nonSystem.length - keep)
  let recent := nonSystem.drop (nonSystem.length - keep)
  if toSummarise = [] then messages else
  let summaryParts : List String := toSummarise.filterMap summaryLine
  let summary : Message :=
    { role := Role.user
      content := "[Context compacted. Summary of earlier conversation:\n" ++
        String.intercalate "\n" summaryParts ++ "\n]\nContinue from here." }
  (match system with | some s => [s] | none => []) ++ [summary] ++ recent

/-- A loaded skill (`Skill` in `src/tools/skills.ts`). -/
structure Skill where
  name : String
  trigger : Option String := none
  content : String
  filePath : String
deriving DecidableEq, Repr

/-- The skill loader (`SkillLoader` in `src/tools/skills.ts`), holding the
skills parsed at construction time (file reading and frontmatter parsing are
outside the modelled core; the claims depend only on the loaded list). -/
structure SkillLoader where
  skills : List Skill
deriving DecidableEq, Repr

/-- Substring containment on character lists: `containsSeq needle hay` is
true when `needle` occurs contiguously in `hay` — the semantics of JS
`String.includes`. -/
def containsSeq (needle : List Char) : List Char → Bool
  | [] => needle.isEmpty
  | c :: rest => needle.isPrefixOf (c :: rest) || containsSeq needle rest

/-- `SkillLoader.getRelevant`: skills with no trigger are always relevant;
triggered skills are relevant when the lowercased user message contains the
lowercased trigger (JS `String.includes` is substring containment;
`toLowerCase` is modelled as per-character lowering). -/
def SkillLoader.getRelevant (l : SkillLoader) (userMessage : String) :
    List Skill :=
  let lower := userMessage.data.map Char.toLower
  l.skills.filter (fun skill =>
    match skill.trigger with
    | none => true
    | some trig => containsSeq (trig.data.map Char.toLower) lower)

/-- `SkillLoader.buildPrompt`: empty when no skill is relevant, otherwise a
blank-line-separated block of `[Skill: name]` sections prefixed by a blank
line. -/
def SkillLoader.buildPrompt (l : SkillLoader) (userMessage : String) : String :=
  let relevant := l.getRelevant userMessage
  if relevant = [] then "" else
  "\n\n" ++ String.intercalate "\n\n"
    (relevant.map (fun s => "[Skill: " ++ s.name ++ "]\n" ++ s.content))

/-- The session store (`SessionStore` in `src/memory/session.ts`): an
append-only durable log.  The model keeps the sequence of messages appended
to the `.jsonl` file, in order; timestamps and the file system are external. -/
structure SessionStore where
  log : List Message
deriving DecidableEq, Repr

/-- `SessionStore.append`: appends one message to the durable log. -/
def SessionStore.append (s : SessionStore) (m : Message) : SessionStore :=
  ⟨s.log ++ [m]⟩

/-- The `MAX_TURNS` constant of `src/agent.ts`. -/
def MAX_TURNS : Nat := 15

/-- The `SYSTEM_PROMPT` constant of `src/agent.ts`. -/
def SYSTEM_PROMPT : String :=
  "You are a helpful coding assistant running locally. You have access to tools for shell commands and file operations.\n\nRules:\n- Be concise. Short answers save context tokens.\n- Use tools when needed, don\x27t guess file contents.\n- One tool call at a time for reliability.\n- If a command fails, explain why and suggest alternatives.\n- Ask for clarification if the request is ambiguous."

/-- The agent (`Agent` in `src/agent.ts`) together with its collaborators.
`parseJson` is the host's `JSON.parse` as an oracle into the abstract
argument type `α` (`none` models a thrown parse error).  `fallbackDistinct`
records whether the configured provider and fallback are distinct objects:
the source compares them by JS reference identity
(`activeProvider !== this.fallback`), which the structural embedding cannot
observe, so object distinctness is carried as configuration data.  The lane
manager is not a field here: `handleMessage` runs its body on the default
lane, whose serialization is modelled separately (see `Lane` below); within
one turn the body is sequential either way. -/
structure Agent (α : Type) where
  provider : LLMProvider
  fallback : Option LLMProvider := none
  fallbackDistinct : Bool := true
  tools : ToolRegistry α
  parseJson : String → Option α
  context : ContextGuard
  session : SessionStore
  skills : Option SkillLoader := none
  messages : List Message

/-- The `Agent` constructor: fields from the config, and the conversation
initialized with the system prompt message. -/
def Agent.init {α : Type} (provider : LLMProvider) (fallback : Option LLMProvider)
    (fallbackDistinct : Bool) (tools : ToolRegistry α)
    (parseJson : String → Option α) (context : ContextGuard)
    (session : SessionStore) (skills : Option SkillLoader) : Agent α :=
  { provider := provider
    fallback := fallback
    fallbackDistinct := fallbackDistinct
    tools := tools
    parseJson := parseJson
    context := context
    session := session
    skills := skills
    messages := [{ role := Role.system, content := SYSTEM_PROMPT }] }

/-- The skill-injection block at the top of `Agent.handleMessage`
(src/agent.ts lines 57-66): when a skill loader is configured and its freshly
built prompt is non-empty (JS truthiness of a string) and the first message
is a system message, the first message is replaced by the base prompt plus
the fresh skill text; otherwise the conversation is unchanged. -/
def Agent.skillAdjusted {α : Type} (a : Agent α) (userInput : String) :
    List Message :=
  match a.skills with
  | some sl =>
      let skillPrompt := sl.buildPrompt userInput
      if skillPrompt ≠ "" then
        match a.messages with
        | m0 :: rest =>
            if m0.role = Role.system then
              ({ role := Role.system, content := SYSTEM_PROMPT ++ skillPrompt } :
                Message) :: rest
            else a.messages
        | [] => a.messages
      else a.messages
  | none => a.messages

/-- The compaction step at the top of each loop iteration (src/agent.ts
lines 79-81): compact in place when the guard triggers. -/
def compactIfNeeded (g : ContextGuard) (msgs : List Message)
    (provider : LLMProvider) : List Message :=
  if g.needsCompaction msgs provider then g.compact msgs provider else msgs

/-- The tool-result message the dispatch loop of `Agent.handleMessage`
appends for one invocation request (src/agent.ts lines 116-156): an
unknown-tool error for a name absent from the registry, a malformed-argument
error when the payload fails to parse, and otherwise the executed tool's
output; in each case `tool_call_id` is the request's id. -/
def Agent.dispatchOne {α : Type} (a : Agent α) (toolCall : ToolCall) : Message :=
  match a.tools.get toolCall.function.name with
  | none =>
      { role := Role.tool
        content := "Error: unknown tool \"" ++ toolCall.function.name ++ "\""
        tool_call_id := some toolCall.id }
  | some tool =>
      match a.parseJson toolCall.function.arguments with
      | none =>
          { role := Role.tool
            content := "Error: invalid JSON in tool arguments: " ++
              toolCall.function.arguments
            tool_call_id := some toolCall.id }
      | some args =>
          { role := Role.tool
            content := (tool.execute args).output
            tool_call_id := some toolCall.id }

/-- The dispatch loop of `Agent.handleMessage` (src/agent.ts lines 116-156):
processes the invocation requests strictly one at a time, in order, pushing
each resulting tool message onto the conversation and appending it to the
session store, and always continuing with the next request. -/
def Agent.dispatchCalls {α : Type} (a : Agent α) (msgs : List Message)
    (sess : SessionStore) : List ToolCall → List Message × SessionStore
  | [] => (msgs, sess)
  | toolCall :: rest =>
      let m := a.dispatchOne toolCall
      a.dispatchCalls (msgs ++ [m]) (sess.append m) rest

/-- A specification-only snapshot of one iteration of the turn loop, taken
at the iteration's first provider call: the provider addressed by that call,
the conversation passed to it (after compaction), and the session log at
that moment. -/
structure Snapshot where
  active : LLMProvider
  msgs : List Message
  sess : SessionStore

/-- The `while (turns < MAX_TURNS)` loop of `Agent.handleMessage`
(src/agent.ts lines 75-157), with fuel `MAX_TURNS - turns`.  `switched` is
whether `activeProvider` has been set to the fallback; the retry condition
`this.fallback && activeProvider !== this.fallback` becomes: a fallback is
configured, the active provider is still the primary, and the two are
distinct objects.  Returns the turn's result string, the final conversation,
the final session log, and the specification trace of per-iteration
snapshots. -/
def Agent.loop {α : Type} (a : Agent α) :
    Nat → Bool → List Message → SessionStore → List Snapshot →
    String × List Message × SessionStore × List Snapshot
  | 0, _, msgs, sess, trace =>
      ("Reached maximum turns (" ++ toString MAX_TURNS ++
        "). Last response may be incomplete.", msgs, sess, trace)
  | fuel + 1, switched, msgs, sess, trace =>
      let active := if switched then a.fallback.getD a.provider else a.provider
      let msgs := compactIfNeeded a.context msgs active
      let toolDefs := a.tools.getDefinitions
      let trace := trace ++ [⟨active, msgs, sess⟩]
      let attempt : Except String (Message × Bool) :=
        match active.chat msgs toolDefs with
        | Except.ok r => Except.ok (r, switched)
        | Except.error e =>
            match a.fallback with
            | some fb =>
                if ¬switched ∧ a.fallbackDistinct then
                  match fb.chat msgs toolDefs with
                  | Except.ok r => Except.ok (r, true)
                  | Except.error e2 =>
                      Except.error ("Both providers failed. " ++ fb.name ++
                        ": " ++ e2)
                else Except.error ("LLM error: " ++ e)
            | none => Except.error ("LLM error: " ++ e)
      match attempt with
      | Except.error errMsg => (errMsg, msgs, sess, trace)
      | Except.ok (response, switched) =>
          let msgs := msgs ++ [response]
          let sess := sess.append response
          match response.tool_calls with
          | none => (response.content, msgs, sess, trace)
          | some tcs =>
              if tcs.length = 0 then (response.content, msgs, sess, trace)
              else
                let out := a.dispatchCalls msgs sess tcs
                a.loop fuel switched out.1 out.2 trace

/-- `Agent.handleMessage` (src/agent.ts lines 55-161): skill injection, the
user message appended to the conversation and the session store, then the
turn loop.  Returns the turn's result string, the agent with its updated
conversation and session, and the specification trace. -/
def Agent.handleMessage {α : Type} (a : Agent α) (userInput : String) :
    String × Agent α × List Snapshot :=
  let messages := a.skillAdjusted userInput
  let userMsg : Message := { role := Role.user, content := userInput }
  let messages := messages ++ [userMsg]
  let sess := a.session.append userMsg
  let out := a.loop MAX_TURNS false messages sess []
  (out.1, { a with messages := out.2.1, session := out.2.2.1 }, out.2.2.2)

/-- `Agent.getMessageCount` (src/agent.ts lines 163-165). -/
def Agent.getMessageCount {α : Type} (a : Agent α) : Nat :=
  a.messages.length

/-- `Agent.getProvider` (src/agent.ts lines 167-169): the configured primary
provider's name. -/
def Agent.getProvider {α : Type} (a : Agent α) : String :=
  a.provider.name

/-!
Model of the execution lane (`Lane` in `src/lane.ts`), for one lane key
(`LaneManager` maps each key to its own independent `Lane`).  JavaScript is
single-threaded and cooperative: `enqueue` atomically pushes onto the queue;
the `running` flag makes at most one `process` loop live, and that loop
repeatedly shifts the queue head, awaits the task to completion (resolve on
success, reject on failure — both complete the task), and only then takes
the next head.  The model is a labelled transition system over these three
atomic transitions.  Tasks are identified by their enqueue sequence number,
so the enqueue order is the numeric order of identifiers.  The `log` records
the observable execution history: a `start i` event when task `i` begins
executing and a `finish i` event when it has fully completed (with success
or failure).  The single `current` slot is exactly what the `running` flag
plus the sequential `await` enforce: a task can only start while no task is
in flight. -/

/-- An observable lane event: task `i` begins executing, or task `i` has
fully completed (success or failure). -/
inductive LaneEvent where
  | start (i : Nat)
  | finish (i : Nat)
deriving DecidableEq, Repr

/-- The state of one lane: the queued task identifiers in FIFO order, the
task currently in flight (if any), the next fresh identifier, and the
execution-history log. -/
structure LaneState where
  queue : List Nat
  current : Option Nat
  next : Nat
  log : List LaneEvent
deriving DecidableEq, Repr

/-- The lane's initial state: empty queue, nothing in flight, empty log. -/
def LaneState.init : LaneState := ⟨[], none, 0, []⟩

/-- The atomic transitions of the lane (src/lane.ts lines 19-45):
`enqueue` pushes a fresh task at the tail; `start` begins the queue-head
task, allowed only when no task is in flight (the `running` guard plus the
sequential `await` of `process`); `finish` completes the in-flight task
(covering both the resolve and the reject path of `process`). -/
inductive LaneStep : LaneState → LaneState → Prop where
  | enqueue (s : LaneState) :
      LaneStep s ⟨s.queue ++ [s.next], s.current, s.next + 1, s.log⟩
  | start (s : LaneState) (t : Nat) (rest : List Nat)
      (hq : s.queue = t :: rest) (hc : s.current = none) :
      LaneStep s ⟨rest, some t, s.next, s.log ++ [LaneEvent.start t]⟩
  | finish (s : LaneState) (t : Nat) (hc : s.current = some t) :
      LaneStep s ⟨s.queue, none, s.next, s.log ++ [LaneEvent.finish t]⟩

/-- Lane states reachable from the initial state. -/
def LaneReachable (s : LaneState) : Prop :=
  Relation.ReflTransGen LaneStep LaneState.init s

/-- The identifiers of the `start` events of a log, in order. -/
def startsOf (log : List LaneEvent) : List Nat :=
  log.filterMap (fun e => match e with
    | LaneEvent.start i => some i
    | LaneEvent.finish _ => none)

/-- The identifiers of the `finish` events of a log, in order. -/
def finishesOf (log : List LaneEvent) : List Nat :=
  log.filterMap (fun e => match e with
    | LaneEvent.start _ => none
    | LaneEvent.finish i => some i)

/-- The canonical fully-serialized log in which tasks `0..p-1` have each
started and finished, strictly in order and without overlap. -/
def canonLog (p : Nat) : List LaneEvent :=
  (List.range p).map (fun i => [LaneEvent.start i, LaneEvent.finish i]) |>.flatten

/-- A log prefix is serialized when its starts are exactly `0..m-1` in
order, its finishes are exactly `0..k-1` in order, and at most one task is
open (`m = k` or `m = k + 1`): tasks start in enqueue order, complete in the
same order, and a task starts only when every earlier task has finished. -/
def SerializedPrefix (l : List LaneEvent) : Prop :=
  startsOf l = List.range (startsOf l).length ∧
  finishesOf l = List.range (finishesOf l).length ∧
  ((startsOf l).length = (finishesOf l).length ∨
    (startsOf l).length = (finishesOf l).length + 1)

/-- The lane-state invariant: the log is a canonical serialized history —
all of `0..p-1` ran to completion in order, plus a trailing `start` exactly
when a task is in flight — and the queue holds precisely the enqueued-but-
not-yet-started identifiers, in enqueue order. -/
def LaneInv (s : LaneState) : Prop :=
  (s.current = none → ∃ p, s.log = canonLog p ∧
    s.queue = List.range' p (s.next - p) ∧ p ≤ s.next) ∧
  (∀ t, s.current = some t → s.log = canonLog t ++ [LaneEvent.start t] ∧
    s.queue = List.range' (t + 1) (s.next - (t + 1)) ∧ t + 1 ≤ s.next)

/-!
Concrete fixtures used by witnesses and counterexamples.
-/

/-- A provider that is always offline and estimates one token per
character. -/
def provFix : LLMProvider :=
  ⟨"prov", fun _ _ => Except.error "offline", fun s => s.length⟩

/-- A context guard with a large budget (no compaction in small fixtures). -/
def guardFix : ContextGuard := ⟨1000, mkRat 1 2⟩

/-- The leading system message of the fixture conversations. -/
def sysMsgFix : Message := { role := Role.system, content := "S" }

/-- A user message whose content is 150 characters long. -/
def longUserMsgFix : Message :=
  { role := Role.user, content := String.mk (List.replicate 150 'x') }

/-- A six-message conversation with a leading system message whose single
summarized message has content longer than 100 characters. -/
def msgsFix : List Message :=
  [sysMsgFix, longUserMsgFix,
   { role := Role.assistant, content := "a1" },
   { role := Role.user, content := "u2" },
   { role := Role.assistant, content := "a2" },
   { role := Role.user, content := "u3" }]

/-!
Context-guard lemmas shared by several claims.
-/

/-- Compaction never changes a leading system message: whatever branch
`compact` takes, the head of the output is the head of the input when that
head has role `system`. -/
theorem ContextGuard.compact_head?_system {g : ContextGuard}
    {p : LLMProvider} {msgs : List Message} {m0 : Message}
    (h : msgs.head? = some m0) (hr : m0.role = Role.system) :
    (g.compact msgs p).head? = some m0 := by
  unfold ContextGuard.compact
  split
  · exact h
  · simp only [h, hr, if_pos]
    split
    · exact h
    · simp

/-- Compaction of a non-empty conversation is non-empty. -/
theorem ContextGuard.compact_ne_nil {g : ContextGuard} {p : LLMProvider}
    {msgs : List Message} (h : msgs ≠ []) :
    g.compact msgs p ≠ [] := by
  unfold ContextGuard.compact
  split
  · exact h
  · split <;> (try split) <;> dsimp only <;> split <;> first | exact h | simp

/-- Claim C8: for every input conversation, `compact` never drops a leading
system message when one exists — the output's first message is that same
system message — and whenever the input conversation is non-empty the output
conversation is non-empty. -/
theorem compact_keeps_system_and_nonempty (g : ContextGuard)
    (p : LLMProvider) (msgs : List Message) :
    (∀ m0, msgs.head? = some m0 → m0.role = Role.system →
      (g.compact msgs p).head? = some m0) ∧
    (msgs ≠ [] → g.compact msgs p ≠ []) :=
  ⟨fun _m0 h hr => ContextGuard.compact_head?_system h hr,
   fun h => ContextGuard.compact_ne_nil h⟩

/-- Witness for C8 at a concrete six-message conversation on which
compaction actually rewrites the history. -/
theorem compact_keeps_system_and_nonempty_witness :
    (guardFix.compact msgsFix provFix).head? = some sysMsgFix ∧
    guardFix.compact msgsFix provFix ≠ [] :=
  ⟨(compact_keeps_system_and_nonempty guardFix provFix msgsFix).1 sysMsgFix
      (by decide) (by decide),
   (compact_keeps_system_and_nonempty guardFix provFix msgsFix).2 (by decide)⟩

/-- Claim C9: for a fixed conversation, size estimator, and threshold in
`(0,1)`, `needsCompaction` is antitone in `max_tokens`: if it is true at
`m2` then it is true at every `m1 ≤ m2`. -/
theorem needsCompaction_antitone_in_maxTokens (msgs : List Message)
    (p : LLMProvider) (threshold m1 m2 : ℚ) (h0 : 0 < threshold)
    (_h1 : threshold < 1) (h12 : m1 ≤ m2)
    (h : ContextGuard.needsCompaction ⟨m2, threshold⟩ msgs p = true) :
    ContextGuard.needsCompaction ⟨m1, threshold⟩ msgs p = true := by
  simp only [ContextGuard.needsCompaction, decide_eq_true_eq] at h ⊢
  exact lt_of_le_of_lt (mul_le_mul_of_nonneg_right h12 h0.le) h

/-- Witness for C9: with a one-token-per-character estimator on a 150
character message, threshold 1/2 and budgets 2 and 1, compaction is needed
at budget 2, hence also at the smaller budget 1. -/
theorem needsCompaction_antitone_in_maxTokens_witness :
    (0 : ℚ) < mkRat 1 2 ∧ mkRat 1 2 < 1 ∧ (1 : ℚ) ≤ 2 ∧
    ContextGuard.needsCompaction ⟨2, mkRat 1 2⟩ [longUserMsgFix] provFix = true ∧
    ContextGuard.needsCompaction ⟨1, mkRat 1 2⟩ [longUserMsgFix] provFix = true :=
  ⟨by decide, by decide, by decide, by decide,
   needsCompaction_antitone_in_maxTokens [longUserMsgFix] provFix
     (mkRat 1 2) 1 2 (by decide) (by decide) (by decide) (by decide)⟩

/-!
Claim-side (specification) rendering of the compaction output, for C7.
-/

/-- Modelled from the spec: the digest line claim C7 prescribes for one
replaced message, read literally — "User asked: " plus the first 100
characters of content for a user message, "Assistant used tools: " plus the
comma-joined tool names for an assistant message carrying tool invocations,
"Assistant: " plus the first 100 characters for a plain assistant message,
"Tool result: " plus the first 60 characters for a tool message.  A leading
system message is never among the replaced messages of a well-formed
conversation, so it produces no digest line. -/
def claimedDigestLine (msg : Message) : Option String :=
  match msg.role with
  | Role.user => some ("User asked: " ++ msg.content.take 100)
  | Role.assistant =>
      match msg.tool_calls with
      | some tcs =>
          some ("Assistant used tools: " ++
            String.intercalate ", " (tcs.map (fun tc => tc.function.name)))
      | none => some ("Assistant: " ++ msg.content.take 100)
  | Role.tool => some ("Tool result: " ++ msg.content.take 60)
  | Role.system => none

/-- Modelled from the spec, amended: the digest line with the content
truncated to the first 100 (resp. 60) characters and an ellipsis marker
"..." appended whenever the content was longer. -/
def amendedDigestLine (msg : Message) : Option String :=
  match msg.role with
  | Role.user => some ("User asked: " ++ truncate msg.content 100)
  | Role.assistant =>
      match msg.tool_calls with
      | some tcs =>
          some ("Assistant used tools: " ++
            String.intercalate ", " (tcs.map (fun tc => tc.function.name)))
      | none => some ("Assistant: " ++ truncate msg.content 100)
  | Role.tool => some ("Tool result: " ++ truncate msg.content 60)
  | Role.system => none

/-- Modelled from the spec: the non-system part of the conversation — all
messages after the leading system message when one exists, the whole
conversation otherwise. -/
def claimedNonSystem (messages : List Message) : List Message :=
  match messages.head? with
  | some m => if m.role = Role.system then messages.drop 1 else messages
  | none => messages

/-- Modelled from the spec: the leading system message as a zero- or
one-element list. -/
def claimedSystemPart (messages : List Message) : List Message :=
  match messages.head? with
  | some m => if m.role = Role.system then [m] else []
  | none => []

/-- Modelled from the spec: the output claim C7 prescribes for a compaction
that is not the identity — the leading system message if present, then one
synthesized user-role summary message whose content is the digest lines of
the replaced messages joined with newlines inside the compaction marker
block with the trailing instruction to continue, then the last 4 non-system
input messages verbatim. -/
def claimedCompactOutput (digest : Message → Option String)
    (messages : List Message) : List Message :=
  let nonSystem := claimedNonSystem messages
  let recent := nonSystem.drop (nonSystem.length - 4)
  let replaced := nonSystem.take (nonSystem.length - 4)
  let summary : Message :=
    { role := Role.user
      content := "[Context compacted. Summary of earlier conversation:\n" ++
        String.intercalate "\n" (replaced.filterMap digest) ++
        "\n]\nContinue from here." }
  claimedSystemPart messages ++ [summary] ++ recent

/-- The amended digest coincides with the summary line the code computes:
`truncate` is exactly take-plus-ellipsis-when-longer. -/
theorem amendedDigestLine_eq_summaryLine : amendedDigestLine = summaryLine :=
  rfl

/-- Claim C7 as literally stated is false: on a six-message conversation
whose single replaced message has 150 characters of content, the code's
digest line carries a trailing "..." after the first 100 characters, so the
compacted conversation differs from the claimed output built from literal
first-100-character digests. -/
theorem compact_first100_counterexample :
    guardFix.compact msgsFix provFix ≠
      claimedCompactOutput claimedDigestLine msgsFix := by
  decide

/-- Claim C7 (amended): for every conversation on which `compact` is not the
identity (more than 4 messages and a non-empty segment to summarize), the
output is exactly the leading system message if present, one synthesized
user-role summary message, and the last 4 non-system input messages
verbatim, where the summary joins one digest line per replaced message with
newlines inside the compaction marker block with the trailing instruction to
continue; digests truncate content to 100 (resp. 60) characters with an
ellipsis marker when longer. -/
theorem compact_output_exactly (g : ContextGuard) (p : LLMProvider)
    (msgs : List Message) (h4 : 4 < msgs.length)
    (hseg : 4 < (claimedNonSystem msgs).length) :
    g.compact msgs p = claimedCompactOutput amendedDigestLine msgs := by
  cases msgs with
  | nil => simp at h4
  | cons m rest =>
    by_cases hr : m.role = Role.system
    · have hlen : 4 < rest.length := by
        simpa [claimedNonSystem, hr] using hseg
      unfold ContextGuard.compact claimedCompactOutput claimedSystemPart
        claimedNonSystem
      rw [if_neg (by omega)]
      simp only [List.head?_cons, if_pos hr, List.drop_succ_cons,
        List.drop_zero, amendedDigestLine_eq_summaryLine]
      rw [if_neg (by
        simp only [List.take_eq_nil_iff, not_or]
        exact ⟨by omega, by rintro rfl; simp at hlen⟩)]
    · unfold ContextGuard.compact claimedCompactOutput claimedSystemPart
        claimedNonSystem
      rw [if_neg (by omega)]
      simp only [List.head?_cons, if_neg hr, amendedDigestLine_eq_summaryLine]
      rw [if_neg (by
        simp only [List.take_eq_nil_iff, not_or]
        exact ⟨by omega, by simp⟩)]

/-- Witness for the amended C7 on the concrete six-message fixture. -/
theorem compact_output_exactly_witness :
    4 < msgsFix.length ∧ 4 < (claimedNonSystem msgsFix).length ∧
    guardFix.compact msgsFix provFix =
      claimedCompactOutput amendedDigestLine msgsFix :=
  ⟨by decide, by decide,
   compact_output_exactly guardFix provFix msgsFix (by decide) (by decide)⟩

/-!
Lane serialization lemmas, for C4.
-/

/-- Splitting the canonical log at its last completed task. -/
theorem canonLog_succ (p : Nat) :
    canonLog (p + 1) = canonLog p ++ [LaneEvent.start p, LaneEvent.finish p] := by
  unfold canonLog
  rw [List.range_succ]
  simp

theorem startsOf_append (l₁ l₂ : List LaneEvent) :
    startsOf (l₁ ++ l₂) = startsOf l₁ ++ startsOf l₂ :=
  List.filterMap_append l₁ l₂ _

theorem finishesOf_append (l₁ l₂ : List LaneEvent) :
    finishesOf (l₁ ++ l₂) = finishesOf l₁ ++ finishesOf l₂ :=
  List.filterMap_append l₁ l₂ _

theorem startsOf_canonLog (p : Nat) : startsOf (canonLog p) = List.range p := by
  induction p with
  | zero => rfl
  | succ p ih =>
      rw [canonLog_succ, startsOf_append, ih, List.range_succ]
      rfl

theorem finishesOf_canonLog (p : Nat) :
    finishesOf (canonLog p) = List.range p := by
  induction p with
  | zero => rfl
  | succ p ih =>
      rw [canonLog_succ, finishesOf_append, ih, List.range_succ]
      rfl

theorem startsOf_singleton_start (i : Nat) :
    startsOf [LaneEvent.start i] = [i] := rfl

theorem startsOf_singleton_finish (i : Nat) :
    startsOf [LaneEvent.finish i] = [] := rfl

theorem finishesOf_singleton_start (i : Nat) :
    finishesOf [LaneEvent.start i] = [] := rfl

theorem finishesOf_singleton_finish (i : Nat) :
    finishesOf [LaneEvent.finish i] = [i] := rfl

/-- A fully completed canonical log is a serialized history. -/
theorem serializedPrefix_canon_closed (p : Nat) :
    SerializedPrefix (canonLog p) := by
  refine ⟨?_, ?_, Or.inl ?_⟩ <;>
    simp only [startsOf_canonLog, finishesOf_canonLog] <;> simp

/-- A canonical log with one in-flight task is a serialized history. -/
theorem serializedPrefix_canon_open (p : Nat) :
    SerializedPrefix (canonLog p ++ [LaneEvent.start p]) := by
  have hs1 : startsOf (canonLog p ++ [LaneEvent.start p]) = List.range (p + 1) := by
    rw [startsOf_append, startsOf_canonLog, startsOf_singleton_start,
      ← List.range_succ]
  have hf1 : finishesOf (canonLog p ++ [LaneEvent.start p]) = List.range p := by
    rw [finishesOf_append, finishesOf_canonLog, finishesOf_singleton_start,
      List.append_nil]
  refine ⟨?_, ?_, Or.inr ?_⟩ <;> simp only [hs1, hf1] <;> simp

/-- Every prefix of a canonical log, with or without a trailing in-flight
`start`, is a serialized history. -/
theorem serializedPrefix_canon (p : Nat) :
    (∀ pre, pre <+: canonLog p → SerializedPrefix pre) ∧
    (∀ pre, pre <+: canonLog p ++ [LaneEvent.start p] → SerializedPrefix pre) := by
  induction p with
  | zero =>
      constructor
      · intro pre h
        have hnil : pre = [] := by
          simpa [canonLog] using h
        subst hnil
        exact serializedPrefix_canon_closed 0
      · intro pre h
        have h' : pre = [LaneEvent.start 0] ∨ pre <+: ([] : List LaneEvent) := by
          simpa [canonLog] using List.prefix_concat_iff.mp h
        rcases h' with rfl | h'
        · exact serializedPrefix_canon_open 0
        · have hnil : pre = [] := by simpa using h'
          subst hnil
          exact serializedPrefix_canon_closed 0
  | succ p ih =>
      obtain ⟨ihA, ihB⟩ := ih
      have hassoc : (canonLog p ++ [LaneEvent.start p]) ++ [LaneEvent.finish p] =
          canonLog (p + 1) := by
        rw [canonLog_succ, List.append_assoc]
        rfl
      have hA : ∀ pre, pre <+: canonLog (p + 1) → SerializedPrefix pre := by
        intro pre h
        rw [← hassoc] at h
        rcases List.prefix_concat_iff.mp h with rfl | h''
        · rw [hassoc]
          exact serializedPrefix_canon_closed (p + 1)
        · exact ihB pre h''
      refine ⟨hA, ?_⟩
      intro pre h
      rcases List.prefix_concat_iff.mp h with rfl | h'
      · exact serializedPrefix_canon_open (p + 1)
      · exact hA pre h'

/-- The invariant holds initially. -/
theorem laneInv_init : LaneInv LaneState.init :=
  ⟨fun _ => ⟨0, rfl, rfl, Nat.le_refl 0⟩, fun _ h => Option.noConfusion h⟩

/-- Every lane transition preserves the invariant. -/
theorem laneStep_preserves {s t : LaneState} (h : LaneStep s t)
    (hs : LaneInv s) : LaneInv t := by
  cases h with
  | enqueue =>
      refine ⟨?_, ?_⟩
      · intro hc
        obtain ⟨p, hlog, hq, hpn⟩ := hs.1 hc
        refine ⟨p, hlog, ?_, ?_⟩
        · show s.queue ++ [s.next] = List.range' p (s.next + 1 - p)
          rw [hq, show s.next + 1 - p = (s.next - p) + 1 from by omega,
            List.range'_concat, one_mul,
            show p + (s.next - p) = s.next from by omega]
        · show p ≤ s.next + 1
          omega
      · intro t' hc
        obtain ⟨hlog, hq, hpn⟩ := hs.2 t' hc
        refine ⟨hlog, ?_, ?_⟩
        · show s.queue ++ [s.next] = List.range' (t' + 1) (s.next + 1 - (t' + 1))
          rw [hq, show s.next + 1 - (t' + 1) = (s.next - (t' + 1)) + 1 from by omega,
            List.range'_concat, one_mul,
            show t' + 1 + (s.next - (t' + 1)) = s.next from by omega]
        · show t' + 1 ≤ s.next + 1
          omega
  | start t rest hq hc =>
      obtain ⟨p, hlog, hqeq, hpn⟩ := hs.1 hc
      have hk : s.next - p ≠ 0 := by
        intro h0
        rw [hqeq, h0] at hq
        exact absurd hq (by simp [List.range'])
      obtain ⟨k, hk'⟩ : ∃ k, s.next - p = k + 1 := ⟨s.next - p - 1, by omega⟩
      rw [hqeq, hk', List.range'_succ] at hq
      have hpt : p = t := (List.cons_eq_cons.mp hq).1
      have hrest : List.range' (p + 1) k = rest := (List.cons_eq_cons.mp hq).2
      subst hpt
      refine ⟨fun hcc => Option.noConfusion hcc, ?_⟩
      intro u hu
      have huu : p = u := Option.some_inj.mp hu
      subst huu
      refine ⟨?_, ?_, ?_⟩
      · show s.log ++ [LaneEvent.start p] = canonLog p ++ [LaneEvent.start p]
        rw [hlog]
      · show rest = List.range' (p + 1) (s.next - (p + 1))
        rw [← hrest, show s.next - (p + 1) = k from by omega]
      · show p + 1 ≤ s.next
        omega
  | finish t hc =>
      obtain ⟨hlog, hq, hpn⟩ := hs.2 t hc
      refine ⟨?_, fun u hu => Option.noConfusion hu⟩
      intro _
      refine ⟨t + 1, ?_, hq, hpn⟩
      show s.log ++ [LaneEvent.finish t] = canonLog (t + 1)
      rw [hlog, canonLog_succ, List.append_assoc]
      rfl

/-- Every reachable lane state satisfies the invariant. -/
theorem laneReachable_inv {s : LaneState} (h : LaneReachable s) : LaneInv s := by
  induction h with
  | refl => exact laneInv_init
  | tail _ hstep ih => exact laneStep_preserves hstep ih

/-- Claim C4: for one lane key, tasks execute strictly in the order they
were enqueued and complete in that same order, and a task begins only after
the previous task for that key has fully completed (success or failure):
in every reachable lane state, every prefix of the execution log has its
starts equal to `0..m-1` in enqueue order, its finishes equal to `0..k-1`
in the same order, and at most one task open (`m = k` or `m = k + 1`) — so
no two tasks of the key ever overlap, and task `m-1` started only after
tasks `0..m-2` had all finished. -/
theorem lane_tasks_serialized (s : LaneState) (h : LaneReachable s) :
    ∀ pre, pre <+: s.log → SerializedPrefix pre := by
  intro pre hpre
  have hinv := laneReachable_inv h
  cases hc : s.current with
  | none =>
      obtain ⟨p, hlog, -, -⟩ := hinv.1 hc
      rw [hlog] at hpre
      exact (serializedPrefix_canon p).1 pre hpre
  | some t =>
      obtain ⟨hlog, -, -⟩ := hinv.2 t hc
      rw [hlog] at hpre
      exact (serializedPrefix_canon t).2 pre hpre

/-- A concrete reachable lane state: two tasks enqueued; the first ran to
completion, the second is in flight. -/
def laneStateW : LaneState :=
  ⟨[], some 1, 2, [LaneEvent.start 0, LaneEvent.finish 0, LaneEvent.start 1]⟩

/-- Witness for C4: the concrete state is reachable by an explicit
transition chain, and its full log is a serialized history. -/
theorem lane_tasks_serialized_witness :
    LaneReachable laneStateW ∧ SerializedPrefix laneStateW.log := by
  have hr : LaneReachable laneStateW :=
    Relation.ReflTransGen.tail
      (Relation.ReflTransGen.tail
        (Relation.ReflTransGen.tail
          (Relation.ReflTransGen.tail
            (Relation.ReflTransGen.tail Relation.ReflTransGen.refl
              (LaneStep.enqueue LaneState.init))
            (LaneStep.enqueue ⟨[0], none, 1, []⟩))
          (LaneStep.start ⟨[0, 1], none, 2, []⟩ 0 [1] rfl rfl))
        (LaneStep.finish ⟨[1], some 0, 2, [LaneEvent.start 0]⟩ 0 rfl))
      (LaneStep.start ⟨[1], none, 2, [LaneEvent.start 0, LaneEvent.finish 0]⟩
        1 [] rfl rfl)
  exact ⟨hr, lane_tasks_serialized laneStateW hr laneStateW.log
    (List.prefix_refl _)⟩

/-!
Agent fixtures.
-/

/-- A primary provider that always fails. -/
def ollamaDown : LLMProvider :=
  ⟨"ollama", fun _ _ => Except.error "p down", fun _ => 0⟩

/-- A fallback provider that always fails. -/
def groqDown : LLMProvider :=
  ⟨"groq", fun _ _ => Except.error "f down", fun _ => 0⟩

/-- An agent whose primary and (distinct) fallback providers both always
fail. -/
def agentBothFail : Agent Unit :=
  Agent.init ollamaDown (some groqDown) true ⟨[]⟩ (fun _ => none)
    ⟨1000, mkRat 1 2⟩ ⟨[]⟩ none

/-- Claim C10: `handleMessage` never mutates the agent's configured provider
and fallback fields — the switch to the fallback lives in a loop-local
variable — so the next turn starts again from the primary, and
`getProvider` still returns the primary provider's name. -/
theorem handleMessage_preserves_providers {α : Type} (a : Agent α)
    (u : String) :
    ((a.handleMessage u).2.1).provider = a.provider ∧
    ((a.handleMessage u).2.1).fallback = a.fallback ∧
    ((a.handleMessage u).2.1).getProvider = a.provider.name :=
  ⟨rfl, rfl, rfl⟩

/-- Claim C1 as stated is false: when both providers fail, the returned
combined-failure string is built from `activeProvider.name` after the switch
to the fallback, so it names only the fallback; the primary provider's name
does not occur in it. -/
theorem both_fail_counterexample :
    (agentBothFail.handleMessage "hi").1 =
      "Both providers failed. groq: f down" ∧
    ¬ ("ollama".data <:+: (agentBothFail.handleMessage "hi").1.data) := by
  constructor
  · decide
  · decide

/-- Claim C1 (amended): if during a turn the primary provider's chat call
fails and a distinct fallback is configured, and the fallback's retried chat
call also fails, `handleMessage` returns a combined-failure string that
states both providers failed, names the fallback provider and includes the
fallback's error; the primary provider is not named in it. -/
theorem both_fail_returns_combined {α : Type} (a : Agent α) (u : String)
    (f : LLMProvider) (e1 e2 : String) (hf : a.fallback = some f)
    (hd : a.fallbackDistinct = true)
    (hp : ∀ m t, a.provider.chat m t = Except.error e1)
    (hfb : ∀ m t, f.chat m t = Except.error e2) :
    (a.handleMessage u).1 = "Both providers failed. " ++ f.name ++ ": " ++ e2 := by
  unfold Agent.handleMessage
  rw [show MAX_TURNS = 14 + 1 from rfl]
  simp only [Agent.loop, hf, hd, Bool.false_eq_true, if_false,
    not_false_iff, true_and, and_true, if_true, hp, hfb]

/-- Witness for the amended C1 with concrete always-failing providers. -/
theorem both_fail_returns_combined_witness :
    agentBothFail.fallback = some groqDown ∧
    agentBothFail.fallbackDistinct = true ∧
    (agentBothFail.handleMessage "hi").1 =
      "Both providers failed. " ++ groqDown.name ++ ": " ++ "f down" :=
  ⟨rfl, rfl,
   both_fail_returns_combined agentBothFail "hi" groqDown "p down" "f down"
     rfl rfl (fun _ _ => rfl) (fun _ _ => rfl)⟩

/-- The turn loop records at most `fuel` further provider-call snapshots. -/
theorem Agent.loop_trace_le {α : Type} (a : Agent α) :
    ∀ (fuel : Nat) (sw : Bool) (msgs : List Message) (sess : SessionStore)
      (tr : List Snapshot),
      (a.loop fuel sw msgs sess tr).2.2.2.length ≤ tr.length + fuel := by
  intro fuel
  induction fuel with
  | zero =>
      intro sw msgs sess tr
      simp [Agent.loop]
  | succ n ih =>
      intro sw msgs sess tr
      unfold Agent.loop
      dsimp only
      split
      · simp only [List.length_append, List.length_cons, List.length_nil]
        omega
      · split
        · simp only [List.length_append, List.length_cons, List.length_nil]
          omega
        · split
          · simp only [List.length_append, List.length_cons, List.length_nil]
            omega
          · refine le_trans (ih _ _ _ _) ?_
            simp only [List.length_append, List.length_cons, List.length_nil]
            omega

/-- Against a primary provider whose every response carries tool invocation
requests, the turn loop burns all its fuel, recording exactly one snapshot
per unit of fuel, and ends with the max-turns message. -/
theorem Agent.loop_alwaysTools {α : Type} (a : Agent α)
    (hp : ∀ m t, ∃ r, a.provider.chat m t = Except.ok r ∧
      ∃ tcs, r.tool_calls = some tcs ∧ tcs ≠ []) :
    ∀ (fuel : Nat) (msgs : List Message) (sess : SessionStore)
      (tr : List Snapshot),
      (a.loop fuel false msgs sess tr).1 =
        "Reached maximum turns (" ++ toString MAX_TURNS ++
          "). Last response may be incomplete." ∧
      (a.loop fuel false msgs sess tr).2.2.2.length = tr.length + fuel := by
  intro fuel
  induction fuel with
  | zero =>
      intro msgs sess tr
      exact ⟨rfl, by simp [Agent.loop]⟩
  | succ n ih =>
      intro msgs sess tr
      obtain ⟨r, hr, tcs, htcs, hne⟩ :=
        hp (compactIfNeeded a.context msgs a.provider) a.tools.getDefinitions
      unfold Agent.loop
      dsimp only
      simp only [Bool.false_eq_true, if_false]
      rw [hr]
      dsimp only
      rw [htcs]
      dsimp only
      rw [if_neg (by simpa using hne)]
      refine ⟨(ih _ _ _).1, ?_⟩
      rw [(ih _ _ _).2]
      simp only [List.length_append, List.length_cons, List.length_nil]
      omega

/-- Claim C5: every turn performs at most `MAX_TURNS = 15` iterations of the
provider-call loop; and for a provider whose every response carries tool
invocation requests (never a final answer), `handleMessage` returns — as a
normal return value — the message that the maximum-turns limit was reached
and the last response may be incomplete, after exactly 15 iterations. -/
theorem handleMessage_turn_limit {α : Type} (a : Agent α) (u : String)
    (hp : ∀ m t, ∃ r, a.provider.chat m t = Except.ok r ∧
      ∃ tcs, r.tool_calls = some tcs ∧ tcs ≠ []) :
    (∀ (β : Type) (b : Agent β) (v : String),
      (b.handleMessage v).2.2.length ≤ MAX_TURNS) ∧
    (a.handleMessage u).1 =
      "Reached maximum turns (15). Last response may be incomplete." ∧
    (a.handleMessage u).2.2.length = MAX_TURNS := by
  refine ⟨fun β b v => ?_, ?_, ?_⟩
  · have h := Agent.loop_trace_le b MAX_TURNS false
      (b.skillAdjusted v ++ [{ role := Role.user, content := v }])
      (b.session.append { role := Role.user, content := v }) []
    simpa [Agent.handleMessage] using h
  · have h := (Agent.loop_alwaysTools a hp MAX_TURNS
      (a.skillAdjusted u ++ [{ role := Role.user, content := u }])
      (a.session.append { role := Role.user, content := u }) []).1
    simpa [Agent.handleMessage] using h
  · have h := (Agent.loop_alwaysTools a hp MAX_TURNS
      (a.skillAdjusted u ++ [{ role := Role.user, content := u }])
      (a.session.append { role := Role.user, content := u }) []).2
    simpa [Agent.handleMessage] using h

/-- A provider that always requests one tool invocation and never gives a
final answer. -/
def loopingProvider : LLMProvider :=
  ⟨"loop",
   fun _ _ => Except.ok
     { role := Role.assistant, content := ""
       tool_calls := some [⟨"call_1", ⟨"nonexistent", "\x7b\x7d"⟩⟩] },
   fun _ => 0⟩

/-- An agent driven by the always-tool-calling provider, with an empty tool
registry. -/
def agentLooping : Agent Unit :=
  Agent.init loopingProvider none true ⟨[]⟩ (fun _ => none)
    ⟨1000, mkRat 1 2⟩ ⟨[]⟩ none

/-- Witness for C5 on the concrete always-tool-calling agent. -/
theorem handleMessage_turn_limit_witness :
    (agentLooping.handleMessage "go").1 =
      "Reached maximum turns (15). Last response may be incomplete." ∧
    (agentLooping.handleMessage "go").2.2.length = MAX_TURNS :=
  ⟨(handleMessage_turn_limit agentLooping "go"
      (fun _ _ => ⟨_, rfl, _, rfl, by decide⟩)).2.1,
   (handleMessage_turn_limit agentLooping "go"
      (fun _ _ => ⟨_, rfl, _, rfl, by decide⟩)).2.2⟩

/-- The conversation passed to the first provider call of a turn: the
skill-adjusted conversation plus the new user message, after the context
guard ran. -/
def Agent.firstCallMsgs {α : Type} (a : Agent α) (u : String) :
    List Message :=
  compactIfNeeded a.context
    (a.skillAdjusted u ++ [{ role := Role.user, content := u }]) a.provider

/-- Dispatching a list of tool invocation requests appends one tool message
per request — `dispatchOne` of it — to both the conversation and the session
log, in request order. -/
theorem Agent.dispatchCalls_eq {α : Type} (a : Agent α) :
    ∀ (calls : List ToolCall) (msgs : List Message) (sess : SessionStore),
      a.dispatchCalls msgs sess calls =
        (msgs ++ calls.map a.dispatchOne,
         ⟨sess.log ++ calls.map a.dispatchOne⟩) := by
  intro calls
  induction calls with
  | nil =>
      intro msgs sess
      cases sess
      simp [Agent.dispatchCalls]
  | cons c rest ih =>
      intro msgs sess
      unfold Agent.dispatchCalls
      rw [ih]
      simp [SessionStore.append, List.append_assoc]

/-- The loop's trace never shrinks. -/
theorem Agent.loop_trace_ge {α : Type} (a : Agent α) :
    ∀ (fuel : Nat) (sw : Bool) (msgs : List Message) (sess : SessionStore)
      (tr : List Snapshot),
      tr.length ≤ (a.loop fuel sw msgs sess tr).2.2.2.length := by
  intro fuel
  induction fuel with
  | zero =>
      intro sw msgs sess tr
      simp [Agent.loop]
  | succ n ih =>
      intro sw msgs sess tr
      unfold Agent.loop
      dsimp only
      split
      · simp
      · split
        · simp
        · split
          · simp
          · refine le_trans ?_ (ih _ _ _ _)
            simp

/-- A loop iteration with fuel left always records a snapshot. -/
theorem Agent.loop_trace_ge_succ {α : Type} (a : Agent α) (n : Nat)
    (sw : Bool) (msgs : List Message) (sess : SessionStore)
    (tr : List Snapshot) :
    tr.length + 1 ≤ (a.loop (n + 1) sw msgs sess tr).2.2.2.length := by
  unfold Agent.loop
  dsimp only
  split
  · simp
  · split
    · simp
    · split
      · simp
      · refine le_trans ?_ (Agent.loop_trace_ge a _ _ _ _ _)
        simp

/-- Claim C6: during tool dispatch, an invocation whose tool name is absent
from the registry produces a tool-role message reporting an unknown-tool
error with `tool_call_id` equal to the request's id; an invocation whose
argument payload fails to parse produces a tool-role message reporting a
malformed-argument error referencing the id; dispatch appends exactly one
tool message per request, in order, to conversation and session, and the
turn is not aborted — when the first response carries tool invocations the
loop records a second provider-call iteration. -/
theorem dispatch_errors_continue {α : Type} (a : Agent α) :
    (∀ (msgs : List Message) (sess : SessionStore) (calls : List ToolCall),
      a.dispatchCalls msgs sess calls =
        (msgs ++ calls.map a.dispatchOne,
         ⟨sess.log ++ calls.map a.dispatchOne⟩)) ∧
    (∀ tc : ToolCall, a.tools.get tc.function.name = none →
      a.dispatchOne tc =
        { role := Role.tool
          content := "Error: unknown tool \"" ++ tc.function.name ++ "\""
          tool_call_id := some tc.id }) ∧
    (∀ (tc : ToolCall) (t : Tool α), a.tools.get tc.function.name = some t →
      a.parseJson tc.function.arguments = none →
      a.dispatchOne tc =
        { role := Role.tool
          content := "Error: invalid JSON in tool arguments: " ++
            tc.function.arguments
          tool_call_id := some tc.id }) ∧
    (∀ (u : String) (r : Message) (tcs : List ToolCall),
      a.provider.chat (a.firstCallMsgs u) a.tools.getDefinitions =
        Except.ok r →
      r.tool_calls = some tcs → tcs ≠ [] →
      2 ≤ (a.handleMessage u).2.2.length) := by
  refine ⟨fun msgs sess calls => Agent.dispatchCalls_eq a calls msgs sess,
    ?_, ?_, ?_⟩
  · intro tc hget
    unfold Agent.dispatchOne
    rw [hget]
  · intro tc t hget hparse
    unfold Agent.dispatchOne
    rw [hget, hparse]
  · intro u r tcs hchat htcs hne
    unfold Agent.firstCallMsgs at hchat
    unfold Agent.handleMessage
    rw [show MAX_TURNS = 14 + 1 from rfl]
    unfold Agent.loop
    dsimp only
    simp only [Bool.false_eq_true, if_false]
    rw [hchat]
    dsimp only
    rw [htcs]
    dsimp only
    rw [if_neg (by simpa using hne)]
    rw [show (14 : Nat) = 13 + 1 from rfl]
    refine le_trans ?_ (Agent.loop_trace_ge_succ a 13 _ _ _ _)
    simp

/-- The assistant response requesting one unknown tool and one tool with an
unparseable argument payload. -/
def twoCallsMsg : Message :=
  { role := Role.assistant, content := ""
    tool_calls := some [⟨"c1", ⟨"nonexistent", "\x7b\x7d"⟩⟩,
      ⟨"c2", ⟨"echo", "not json"⟩⟩] }

/-- A provider that requests the two tool calls first and answers "done"
once tool results are in the conversation. -/
def twoPhaseProvider : LLMProvider :=
  ⟨"two",
   fun m _ =>
     if m.any (fun msg => msg.role == Role.tool) then
       Except.ok { role := Role.assistant, content := "done" }
     else Except.ok twoCallsMsg,
   fun _ => 0⟩

/-- A registered tool named "echo". -/
def echoTool : Tool Unit :=
  { name := "echo"
    definition :=
      { function :=
        { name := "echo", description := "echoes"
          parameters := { properties := [], required := [] } } }
    execute := fun _ => ⟨"ok", true⟩ }

/-- An agent with the two-phase provider, the echo tool registered, and a
JSON parser that rejects everything. -/
def agentDispatch : Agent Unit :=
  Agent.init twoPhaseProvider none true ⟨[echoTool]⟩ (fun _ => none)
    ⟨1000, mkRat 1 2⟩ ⟨[]⟩ none

/-- Witness for C6 on the concrete two-call scenario. -/
theorem dispatch_errors_continue_witness :
    agentDispatch.dispatchOne ⟨"c1", ⟨"nonexistent", "\x7b\x7d"⟩⟩ =
      { role := Role.tool
        content := "Error: unknown tool \"nonexistent\""
        tool_call_id := some "c1" } ∧
    agentDispatch.dispatchOne ⟨"c2", ⟨"echo", "not json"⟩⟩ =
      { role := Role.tool
        content := "Error: invalid JSON in tool arguments: not json"
        tool_call_id := some "c2" } ∧
    2 ≤ (agentDispatch.handleMessage "hi").2.2.length :=
  ⟨(dispatch_errors_continue agentDispatch).2.1 _ rfl,
   (dispatch_errors_continue agentDispatch).2.2.1 _ echoTool rfl rfl,
   (dispatch_errors_continue agentDispatch).2.2.2 "hi" twoCallsMsg _ rfl rfl
     (by decide)⟩

/-- Appending on the right preserves a known head. -/
theorem head?_append_some {l l' : List Message} {m : Message}
    (h : l.head? = some m) : (l ++ l').head? = some m := by
  cases l with
  | nil => simp at h
  | cons x xs => simpa using h

/-- The conditional compaction step preserves a leading system message. -/
theorem compactIfNeeded_head?_system {g : ContextGuard} {p : LLMProvider}
    {msgs : List Message} {m0 : Message} (h : msgs.head? = some m0)
    (hr : m0.role = Role.system) :
    (compactIfNeeded g msgs p).head? = some m0 := by
  unfold compactIfNeeded
  split
  · exact ContextGuard.compact_head?_system h hr
  · exact h

/-- The turn loop never changes a leading system message of the
conversation. -/
theorem Agent.loop_head_system {α : Type} (a : Agent α) :
    ∀ (fuel : Nat) (sw : Bool) (msgs : List Message) (sess : SessionStore)
      (tr : List Snapshot) (m0 : Message),
      msgs.head? = some m0 → m0.role = Role.system →
      (a.loop fuel sw msgs sess tr).2.1.head? = some m0 := by
  intro fuel
  induction fuel with
  | zero =>
      intro sw msgs sess tr m0 h hr
      simpa [Agent.loop] using h
  | succ n ih =>
      intro sw msgs sess tr m0 h hr
      unfold Agent.loop
      dsimp only
      have h2 : (compactIfNeeded a.context msgs
          (if sw = true then a.fallback.getD a.provider else a.provider)).head? =
          some m0 := compactIfNeeded_head?_system h hr
      split
      · exact h2
      · split
        · exact head?_append_some h2
        · split
          · exact head?_append_some h2
          · refine ih _ _ _ _ _ ?_ hr
            rw [Agent.dispatchCalls_eq]
            exact head?_append_some (head?_append_some h2)

/-- A skill triggered by the word "review". -/
def reviewSkill : Skill :=
  { name := "code-review", trigger := some "review", content := "R"
    filePath := "skills/code-review.md" }

/-- A provider that always answers "ok" with no tool calls. -/
def okProvider : LLMProvider :=
  ⟨"ok", fun _ _ => Except.ok { role := Role.assistant, content := "ok" },
   fun _ => 0⟩

/-- An agent with the review skill configured. -/
def agentSkills : Agent Unit :=
  Agent.init okProvider none true ⟨[]⟩ (fun _ => none) ⟨1000, mkRat 1 2⟩
    ⟨[]⟩ (some ⟨[reviewSkill]⟩)

/-- Claim C2 as stated is false: after a first turn whose input triggers the
review skill and a second turn whose input selects no skill (so the freshly
selected skill text is empty), the system message still carries the first
turn's skill text instead of being recomputed to the bare base prompt. -/
theorem skill_text_persists_counterexample :
    SkillLoader.buildPrompt ⟨[reviewSkill]⟩ "hello" = "" ∧
    ((agentSkills.handleMessage "please review this").2.1.handleMessage
        "hello").2.1.messages.head? =
      some { role := Role.system
             content := SYSTEM_PROMPT ++ "\n\n[Skill: code-review]\nR" } ∧
    ((agentSkills.handleMessage "please review this").2.1.handleMessage
        "hello").2.1.messages.head? ≠
      some { role := Role.system
             content := SYSTEM_PROMPT ++
               SkillLoader.buildPrompt ⟨[reviewSkill]⟩ "hello" } := by
  refine ⟨by decide, by decide, by decide⟩

/-- Claim C2 (amended): when a skill loader is configured and the
conversation starts with a system message, a turn whose freshly selected
skill text is non-empty recomputes the system message as exactly the fixed
base prompt plus that fresh text (replacing any earlier skill text), while a
turn whose fresh selection is empty leaves the system message unchanged — so
skill text from an earlier turn persists in that case. -/
theorem skill_recompute {α : Type} (a : Agent α) (u : String)
    (sl : SkillLoader) (hsk : a.skills = some sl) (m0 : Message)
    (hm : a.messages.head? = some m0) (hr : m0.role = Role.system) :
    (sl.buildPrompt u ≠ "" →
      (a.handleMessage u).2.1.messages.head? =
        some { role := Role.system
               content := SYSTEM_PROMPT ++ sl.buildPrompt u }) ∧
    (sl.buildPrompt u = "" →
      (a.handleMessage u).2.1.messages.head? = some m0) := by
  cases hM : a.messages with
  | nil =>
      rw [hM] at hm
      simp at hm
  | cons mh mt =>
      have hmh : m0 = mh := by
        rw [hM] at hm
        exact (Option.some_inj.mp hm).symm
      subst hmh
      constructor
      · intro hne
        have hadj : a.skillAdjusted u =
            ({ role := Role.system,
               content := SYSTEM_PROMPT ++ sl.buildPrompt u } : Message) :: mt := by
          unfold Agent.skillAdjusted
          rw [hsk, hM]
          simp [hne, hr]
        unfold Agent.handleMessage
        dsimp only
        rw [hadj]
        exact Agent.loop_head_system a MAX_TURNS false _ _ _ _ (by simp) rfl
      · intro heq
        have hadj : a.skillAdjusted u = a.messages := by
          unfold Agent.skillAdjusted
          rw [hsk]
          simp [heq]
        unfold Agent.handleMessage
        dsimp only
        rw [hadj, hM]
        exact Agent.loop_head_system a MAX_TURNS false _ _ _ m0 (by simp) hr

/-- Witness for the amended C2: the first turn of the concrete skill agent
recomputes the system message to base prompt plus the review skill text. -/
theorem skill_recompute_witness :
    (agentSkills.handleMessage "please review this").2.1.messages.head? =
      some { role := Role.system
             content := SYSTEM_PROMPT ++
               SkillLoader.buildPrompt ⟨[reviewSkill]⟩ "please review this" } :=
  (skill_recompute agentSkills "please review this" ⟨[reviewSkill]⟩ rfl
    { role := Role.system, content := SYSTEM_PROMPT } rfl rfl).1 (by decide)

/-!
Session durability, for C3.
-/

/-- The commit relation between consecutive provider-call snapshots of one
turn: the conversation at the next call is the conversation at the previous
call plus some appended messages `d` — then possibly compacted in memory —
and the durable session log has grown by exactly that same `d`.  Compaction
affects only the conversation side, never the session log. -/
def SnapStep {α : Type} (a : Agent α) (s t : Snapshot) : Prop :=
  ∃ d, t.msgs = compactIfNeeded a.context (s.msgs ++ d) t.active ∧
    t.sess.log = s.sess.log ++ d

/-- The turn loop only ever appends to its snapshot trace. -/
theorem Agent.loop_trace_extends {α : Type} (a : Agent α) :
    ∀ (fuel : Nat) (sw : Bool) (msgs : List Message) (sess : SessionStore)
      (tr : List Snapshot),
      ∃ ext, (a.loop fuel sw msgs sess tr).2.2.2 = tr ++ ext := by
  intro fuel
  induction fuel with
  | zero =>
      intro sw msgs sess tr
      exact ⟨[], by simp [Agent.loop]⟩
  | succ n ih =>
      intro sw msgs sess tr
      unfold Agent.loop
      dsimp only
      split
      · exact ⟨_, rfl⟩
      · split
        · exact ⟨_, rfl⟩
        · split
          · exact ⟨_, rfl⟩
          · obtain ⟨ext, hext⟩ := ih _ _ _ _
            exact ⟨_, by rw [hext, List.append_assoc]⟩

/-- With fuel left, the loop records the current iteration's snapshot as the
next trace entry. -/
theorem Agent.loop_trace_cons {α : Type} (a : Agent α) (n : Nat) (sw : Bool)
    (msgs : List Message) (sess : SessionStore) (tr : List Snapshot) :
    ∃ rest, (a.loop (n + 1) sw msgs sess tr).2.2.2 =
      tr ++ (⟨if sw = true then a.fallback.getD a.provider else a.provider,
        compactIfNeeded a.context msgs
          (if sw = true then a.fallback.getD a.provider else a.provider),
        sess⟩ : Snapshot) :: rest := by
  unfold Agent.loop
  dsimp only
  split
  · exact ⟨[], by simp⟩
  · split
    · exact ⟨[], by simp⟩
    · split
      · exact ⟨[], by simp⟩
      · obtain ⟨ext, hext⟩ := Agent.loop_trace_extends a _ _ _ _ _
        exact ⟨ext, by rw [hext]; simp⟩

/-- Every trace the loop produces is a chain under the commit relation,
provided the incoming trace is one and the loop's conversation/session state
extends the last recorded snapshot by a common suffix. -/
theorem Agent.loop_chain {α : Type} (a : Agent α) :
    ∀ (fuel : Nat) (sw : Bool) (msgs : List Message) (sess : SessionStore)
      (tr : List Snapshot),
      List.Chain' (SnapStep a) tr →
      (∀ last, tr.getLast? = some last →
        ∃ d, msgs = last.msgs ++ d ∧ sess.log = last.sess.log ++ d) →
      List.Chain' (SnapStep a) (a.loop fuel sw msgs sess tr).2.2.2 := by
  intro fuel
  induction fuel with
  | zero =>
      intro sw msgs sess tr hch _
      simpa [Agent.loop] using hch
  | succ n ih =>
      intro sw msgs sess tr hch hlink
      have hch' : List.Chain' (SnapStep a)
          (tr ++ [(⟨if sw = true then a.fallback.getD a.provider else a.provider,
            compactIfNeeded a.context msgs
              (if sw = true then a.fallback.getD a.provider else a.provider),
            sess⟩ : Snapshot)]) := by
        refine List.Chain'.append hch (List.chain'_singleton _) ?_
        intro x hx y hy
        obtain ⟨d, hd1, hd2⟩ := hlink x (Option.mem_def.mp hx)
        have hy0 := Option.mem_def.mp hy
        simp at hy0
        subst hy0
        exact ⟨d, by rw [hd1], by simpa using hd2⟩
      unfold Agent.loop
      dsimp only
      split
      · exact hch'
      · split
        · exact hch'
        · split
          · exact hch'
          · rename_i attempt response switched hok xtc tcs htcs hlen
            refine ih _ _ _ _ hch' ?_
            intro last hlast
            have hlast0 := hlast
            simp at hlast0
            subst hlast0
            refine ⟨response :: List.map a.dispatchOne tcs, ?_, ?_⟩
            · rw [Agent.dispatchCalls_eq]
              simp
            · rw [Agent.dispatchCalls_eq]
              simp [SessionStore.append]

/-- A provider that estimates 100 tokens per message, keeps requesting an
unknown tool until a compaction marker appears in the conversation, and then
answers "done". -/
def compactingProvider : LLMProvider :=
  ⟨"cp",
   fun m _ =>
     if m.any (fun msg =>
         ("[Context compacted.".data).isPrefixOf msg.content.data) then
       Except.ok { role := Role.assistant, content := "done" }
     else
       Except.ok { role := Role.assistant, content := ""
                   tool_calls := some [⟨"c", ⟨"nope", "x"⟩⟩] },
   fun _ => 100⟩

/-- An agent with a one-token budget, so the context guard triggers on every
iteration and actually rewrites the history on the third. -/
def agentCompact : Agent Unit :=
  Agent.init compactingProvider none true ⟨[]⟩ (fun _ => none)
    ⟨1, mkRat 1 2⟩ ⟨[]⟩ none

/-- Claim C3 as stated is false: on the concrete run, the third provider
call consumes a conversation containing the compaction replacement (the
synthesized summary message), but neither the session log at that call nor
the final session log ever contains it — the compaction replacement is not
durably appended before the next provider call, so the durable log does not
replay the messages the provider saw. -/
theorem compaction_not_persisted_counterexample :
    ((agentCompact.handleMessage "hi").2.2.map
      (fun t =>
        (t.msgs.any (fun m =>
           ("[Context compacted.".data).isPrefixOf m.content.data),
         t.sess.log.any (fun m =>
           ("[Context compacted.".data).isPrefixOf m.content.data)))) =
      [(false, false), (false, false), (true, false)] ∧
    ((agentCompact.handleMessage "hi").2.1.session.log.any
      (fun m => ("[Context compacted.".data).isPrefixOf m.content.data)) =
      false := by
  exact ⟨by decide, by decide⟩

/-- Claim C3 (amended): every message appended to the conversation during a
turn — the user message, each assistant response, each tool-result message —
is appended to the session store at the same point, before the next provider
call: the first provider call sees the durable log extended by exactly the
user message, and between consecutive provider calls the conversation and
the durable log grow by the same list of messages; the compaction
replacement, however, is applied only to the in-memory conversation and is
never appended to the session store (`SnapStep` compacts only the
conversation side). -/
theorem session_commits {α : Type} (a : Agent α) (u : String) :
    (∃ t rest, (a.handleMessage u).2.2 = t :: rest ∧
      t.active = a.provider ∧
      t.msgs = a.firstCallMsgs u ∧
      t.sess.log = a.session.log ++ [{ role := Role.user, content := u }]) ∧
    List.Chain' (SnapStep a) (a.handleMessage u).2.2 := by
  constructor
  · obtain ⟨rest, hrest⟩ := Agent.loop_trace_cons a 14 false
      (a.skillAdjusted u ++ [{ role := Role.user, content := u }])
      (a.session.append { role := Role.user, content := u }) []
    simp only [Bool.false_eq_true, if_false, List.nil_append] at hrest
    unfold Agent.handleMessage
    dsimp only
    rw [show MAX_TURNS = 14 + 1 from rfl, hrest]
    exact ⟨_, rest, rfl, rfl, rfl, rfl⟩
  · unfold Agent.handleMessage
    dsimp only
    exact Agent.loop_chain a MAX_TURNS false _ _ [] List.chain'_nil
      (fun last h => by simp at h)

end Clawlite
